import Mathlib

/-!
Verification of the Stream Orchestration & Reliable Uplink Subsystem of the
RNE repository (TypeScript).  The definitions below are a shallow embedding
of the relevant source functions:

* source-queue construction and rotation (`WatcherEngine` in
  `rne-headless/src/engine.ts`, `StreamManager` in the Electron variant);
* the per-stream capture loops (`StreamWatcher.startCaptureLoop` in
  `rne-headless/src/reasoning-engine.ts`, `StreamManager.startCaptureLoop`);
* stall detection (`EmbeddedBrowser.detectStall` and `getPlaybackState` in
  `src/main/browser/EmbeddedBrowser.ts`);
* the uplink channel (`UplinkManager` in `src/main/uplink/UplinkManager.ts`
  and the headless `UplinkManager` in `rne-headless/src/ai-analyzer.ts`).

JS numbers appear in the embedded code only as counters, timestamps and in
equality / order comparisons, so they are embedded as `Nat` / `Int`; no
floating-point arithmetic is performed by any embedded operation.
Timer-driven and promise-driven behaviour is embedded as explicit state
passing over event lists, one constructor per registered callback.

The file is laid out as: all definitions first, then all theorems.
-/

namespace RNE

/-! Data model -/

/-- Source descriptor as configured (`config.ts` in both variants):
`{name, url, type, priority, category}`. -/
inductive SourceType
  | video
  | playlist
  | channel
deriving DecidableEq, Repr

structure Source where
  name : String
  url : String
  type : SourceType
  priority : Int
  category : String
deriving DecidableEq, Repr

instance : Inhabited Source :=
  ⟨{ name := "", url := "", type := SourceType.video, priority := 0, category := "" }⟩

/-- Ordering used by `initSourceQueue` in priority mode, from the comparator
`(a, b) => a.priority - b.priority`: `a` sorts no later than `b` exactly when
`a.priority ≤ b.priority`. -/
def priorityRel (a b : Source) : Prop :=
  a.priority ≤ b.priority

instance : DecidableRel priorityRel := fun a b => Int.decLe a.priority b.priority

instance : IsTotal Source priorityRel := ⟨fun a b => Int.le_total a.priority b.priority⟩

instance : IsTrans Source priorityRel := ⟨fun _ _ _ hab hbc => le_trans hab hbc⟩

/-- `WatcherEngine.initSourceQueue` (`engine.ts` lines 38-42) and the
`priority` branch of `StreamManager.initSourceQueue`:
`[...this.config.streams.sources].sort((a, b) => a.priority - b.priority)`.
ECMAScript `Array.prototype.sort` is required to be stable, and the stable
sort by this comparator is exactly a stable sort by `priorityRel`. -/
def initSourceQueuePriority (sources : List Source) : List Source :=
  sources.insertionSort priorityRel

/-! Orchestrator: rotation queue cursor and stream rotation (`engine.ts`) -/

/-- One active stream session as tracked by `WatcherEngine.streams`
(`engine.ts`): the `StreamWatcher` stats relevant to rotation.  The JS `Map`
preserves insertion order, embedded here as a list in insertion order. -/
structure Session where
  streamId : Nat
  source : Source
  startedAt : Nat
  framesCaptured : Nat
  framesAnalyzed : Nat
  currentTime : Int
deriving DecidableEq, Repr

/-- Orchestrator state (`WatcherEngine` in `engine.ts`): the rotation queue,
its cursor, the insertion-ordered session map, and the running totals that
`rotateStreams` folds stopped sessions into. -/
structure WatcherEngine where
  sourceQueue : List Source
  currentSourceIndex : Nat
  streams : List Session
  running : Bool
  totalFramesCaptured : Nat
  totalFramesAnalyzed : Nat
deriving DecidableEq, Repr

/-- `WatcherEngine.getNextSource` (`engine.ts` lines 137-141) and
`StreamManager.getNextSource`:
returns `sourceQueue[currentSourceIndex]` and sets
`currentSourceIndex = (currentSourceIndex + 1) % sourceQueue.length`. -/
def getNextSource (e : WatcherEngine) : Source × WatcherEngine :=
  (e.sourceQueue.getD e.currentSourceIndex default,
   { e with currentSourceIndex := (e.currentSourceIndex + 1) % e.sourceQueue.length })

/-- The sources returned by `n` consecutive `getNextSource` requests. -/
def nexts : Nat → WatcherEngine → List Source
  | 0, _ => []
  | n + 1, e => (getNextSource e).1 :: nexts n (getNextSource e).2

/-- The engine state after `n` consecutive `getNextSource` requests. -/
def advance : Nat → WatcherEngine → WatcherEngine
  | 0, e => e
  | n + 1, e => advance n (getNextSource e).2

/-- A fresh session as `startStream` creates it (`stats` initialisation in the
`StreamWatcher` constructor, `reasoning-engine.ts` lines 263-274). -/
def mkSession (newId : Nat) (src : Source) (now : Nat) : Session :=
  { streamId := newId
    source := src
    startedAt := now
    framesCaptured := 0
    framesAnalyzed := 0
    currentTime := 0 }

/-- `WatcherEngine.rotateStreams` (`engine.ts` lines 154-185): if not running
or with no active session, do nothing; otherwise take the first session in
insertion order (`streamIds[0]`), fold its stats into the running totals,
remove it, and start a session for the next source off the cursor (appended
to the map; `startOk = false` is the caught `startStream` failure, which
appends nothing).  The knowledge-store watch-time update touches only the
external collaborator and is outside this embedding. -/
def rotateStreams (e : WatcherEngine) (now newId : Nat) (startOk : Bool) : WatcherEngine :=
  if e.running = false then e
  else
    match e.streams with
    | [] => e
    | oldest :: rest =>
        let e1 : WatcherEngine :=
          { e with
              streams := rest
              totalFramesCaptured := e.totalFramesCaptured + oldest.framesCaptured
              totalFramesAnalyzed := e.totalFramesAnalyzed + oldest.framesAnalyzed }
        let r := getNextSource e1
        if startOk then { r.2 with streams := r.2.streams ++ [mkSession newId r.1 now] }
        else r.2

/-! Headless capture loop (`StreamWatcher.startCaptureLoop`,
`reasoning-engine.ts` lines 415-493) -/

/-- Bounding box of a detection (`observations.ts`). -/
structure BoundingBox where
  x : Int
  y : Int
  width : Int
  height : Int
deriving DecidableEq, Repr

/-- Detection record (`observations.ts`).  `confidence` is a JS number that
the embedded code never computes with, so an integral embedding suffices. -/
structure Detection where
  class_id : Nat
  class_name : String
  confidence : Int
  bbox : BoundingBox
  track_id : Option Nat
deriving DecidableEq, Repr

/-- Observation of the headless variant (`uplink.ts` shape used by
`ai-analyzer.ts` / `reasoning-engine.ts`): player-derived fields. -/
structure ObservationH where
  streamId : Nat
  frameId : Nat
  capturedAt : Nat
  videoId : String
  videoTitle : String
  currentTime : Int
  duration : Int
  category : String
  detections : List Detection
deriving DecidableEq, Repr

/-- Result of the in-page `page.evaluate` of the headless capture tick. -/
structure PageState where
  currentTime : Int
  duration : Int
  isPlaying : Bool
  videoId : String
  title : String
deriving DecidableEq, Repr

/-- Headless `StreamStats.state` (`reasoning-engine.ts` line 241). -/
inductive WatcherState
  | starting
  | playing
  | buffering
  | error
  | stopped
deriving DecidableEq, Repr

/-- Headless `StreamStats` (`reasoning-engine.ts` lines 231-242). -/
structure StreamStatsH where
  streamId : Nat
  source : Source
  videoId : String
  videoTitle : String
  currentTime : Int
  duration : Int
  framesCaptured : Nat
  framesAnalyzed : Nat
  startedAt : Nat
  state : WatcherState
deriving DecidableEq, Repr

/-- Headless `StreamWatcher` fields read by its capture loop. -/
structure StreamWatcher where
  streamId : Nat
  source : Source
  running : Bool
  pagePresent : Bool
  stats : StreamStatsH
deriving DecidableEq, Repr

/-- Input of one headless capture tick: whether the in-page evaluation
succeeded (it is wrapped in try/catch: a failure is logged and the tick does
nothing), the player state it returned, and the tick's wall-clock time. -/
structure TickInput where
  evalOk : Bool
  ps : PageState
  now : Nat
deriving DecidableEq, Repr

/-- One tick of `StreamWatcher.startCaptureLoop` (`reasoning-engine.ts`
lines 418-492): guard `!this.running || !this.page`, then on a successful
page evaluation update the stats, increment `framesCaptured`, and submit an
observation with `frameId = this.stats.framesCaptured` (the value after the
increment).  The AI-analysis tail mutates only `framesAnalyzed` and the
external analyzer, not the observation, and is outside this embedding. -/
def captureTick (w : StreamWatcher) (evalOk : Bool) (ps : PageState) (now : Nat) :
    StreamWatcher × Option ObservationH :=
  if w.running = false ∨ w.pagePresent = false then (w, none)
  else if evalOk = false then (w, none)
  else
    let stats :=
      { w.stats with
        currentTime := ps.currentTime
        duration := ps.duration
        videoId := ps.videoId
        videoTitle := ps.title
        framesCaptured := w.stats.framesCaptured + 1 }
    ({ w with stats := stats },
     some { streamId := w.streamId
            frameId := stats.framesCaptured
            capturedAt := now
            videoId := ps.videoId
            videoTitle := ps.title
            currentTime := ps.currentTime
            duration := ps.duration
            category := w.source.category
            detections := [] })

/-- The headless capture loop over a sequence of tick inputs: final watcher
state and the observations submitted to the uplink, in submission order. -/
def runCaptureLoop (w : StreamWatcher) : List TickInput → StreamWatcher × List ObservationH
  | [] => (w, [])
  | t :: ts =>
      let r := captureTick w t.evalOk t.ps t.now
      let rest := runCaptureLoop r.1 ts
      (rest.1, r.2.toList ++ rest.2)

/-! Electron capture loop and stall detection (`StreamManager.startCaptureLoop`
and `EmbeddedBrowser`) -/

/-- Observation of the Electron variant (`observations.ts`):
`{stream_id, frame_id, captured_at, frame_width, frame_height, detections}`. -/
structure ObservationE where
  stream_id : Nat
  frame_id : Nat
  captured_at : Nat
  frame_width : Nat
  frame_height : Nat
  detections : List Detection
deriving DecidableEq, Repr

/-- Stream state union of the Electron variant (`observations.ts` line 24):
note that it declares a `stalled` member. -/
inductive StreamState
  | starting
  | playing
  | buffering
  | stalled
  | error
  | stopped
deriving DecidableEq, Repr

/-- `StreamStatus` (`observations.ts` lines 20-32). -/
structure StreamStatus where
  stream_id : Nat
  video_id : String
  video_title : String
  state : StreamState
  current_time : Int
  duration : Int
  frames_captured : Nat
  detections_count : Nat
  started_at : Nat
  last_activity : Nat
deriving DecidableEq, Repr

/-- One entry of `StreamManager.streams` (the browser handle is identified by
the stream itself here). -/
structure Stream where
  id : Nat
  status : StreamStatus
deriving DecidableEq, Repr

/-- Stall-detection state of `EmbeddedBrowser`
(`EmbeddedBrowser.ts` lines 30-31): both fields initialised to 0. -/
structure EmbeddedBrowser where
  lastPlaybackTime : Int
  stallCheckCount : Nat
deriving DecidableEq, Repr

/-- `EmbeddedBrowser.detectStall` (`EmbeddedBrowser.ts` lines 312-320): if the
reported position equals the remembered one, increment the counter, else
reset the counter to 0 and remember the new position; report a stall when the
updated counter has reached 3. -/
def detectStall (br : EmbeddedBrowser) (currentTime : Int) : EmbeddedBrowser × Bool :=
  let br1 :=
    if currentTime = br.lastPlaybackTime then
      { br with stallCheckCount := br.stallCheckCount + 1 }
    else
      { lastPlaybackTime := currentTime, stallCheckCount := 0 }
  (br1, decide (3 ≤ br1.stallCheckCount))

/-- Raw result of the in-page evaluation inside
`EmbeddedBrowser.getPlaybackState` (plus the video id parsed from the URL). -/
structure PlayerReading where
  isPlaying : Bool
  isBuffering : Bool
  hasEnded : Bool
  currentTime : Int
  duration : Int
  videoId : String
deriving DecidableEq, Repr

/-- `PlaybackState` as returned by `EmbeddedBrowser.getPlaybackState`. -/
structure PlaybackState where
  isPlaying : Bool
  isBuffering : Bool
  isStalled : Bool
  hasEnded : Bool
  hasPrompt : Bool
  currentTime : Int
  duration : Int
  videoId : String
deriving DecidableEq, Repr

/-- `EmbeddedBrowser.getPlaybackState` (`EmbeddedBrowser.ts` lines 245-310):
with no browser view or a throwing evaluation (`readOk = false`) it returns
the all-false default and does not run `detectStall`; otherwise it runs
`detectStall` on the reported position and assembles the state. -/
def getPlaybackState (br : EmbeddedBrowser) (readOk : Bool) (r : PlayerReading)
    (hasPrompt : Bool) : EmbeddedBrowser × PlaybackState :=
  if readOk = false then
    (br, { isPlaying := false
           isBuffering := false
           isStalled := false
           hasEnded := false
           hasPrompt := false
           currentTime := 0
           duration := 0
           videoId := "" })
  else
    let ds := detectStall br r.currentTime
    (ds.1, { isPlaying := r.isPlaying
             isBuffering := r.isBuffering
             isStalled := ds.2
             hasEnded := r.hasEnded
             hasPrompt := hasPrompt
             currentTime := r.currentTime
             duration := r.duration
             videoId := r.videoId })

/-- Input of one Electron capture tick: whether `captureScreenshot` returned a
buffer (it catches its own errors and returns null on failure), whether the
playback-state evaluation succeeded, the raw player reading, the prompt flag
and the tick's wall-clock time. -/
structure MgrTick where
  frameOk : Bool
  readOk : Bool
  reading : PlayerReading
  hasPrompt : Bool
  now : Nat
deriving DecidableEq, Repr

/-- One tick of `StreamManager.startCaptureLoop`'s `captureFrame`
(`StreamManager` lines 117-163): skip everything when paused or stopped;
on a captured frame increment `frames_captured`, refresh `last_activity` and
submit an observation with `frame_id = frames_captured` (after increment);
then read the playback state, copy position fields, and set the state to
`playing` or `buffering` as reported (the `isStalled` flag of the reading is
not consulted). -/
def captureFrameStep (isPaused : Bool) (frameW frameH : Nat) (st : Stream)
    (br : EmbeddedBrowser) (t : MgrTick) : Stream × EmbeddedBrowser × Option ObservationE :=
  if isPaused = true ∨ st.status.state = StreamState.stopped then (st, br, none)
  else
    let st1 :=
      if t.frameOk then
        { st with status :=
            { st.status with
              frames_captured := st.status.frames_captured + 1
              last_activity := t.now } }
      else st
    let obs : Option ObservationE :=
      if t.frameOk then
        some { stream_id := st.id
               frame_id := st1.status.frames_captured
               captured_at := t.now
               frame_width := frameW
               frame_height := frameH
               detections := [] }
      else none
    let g := getPlaybackState br t.readOk t.reading t.hasPrompt
    let st2 :=
      { st1 with status :=
          { st1.status with
            current_time := g.2.currentTime
            duration := g.2.duration
            video_id := g.2.videoId } }
    let st3 :=
      if g.2.isPlaying then
        { st2 with status := { st2.status with state := StreamState.playing } }
      else if g.2.isBuffering then
        { st2 with status := { st2.status with state := StreamState.buffering } }
      else st2
    (st3, g.1, obs)

/-- The Electron capture loop over a sequence of tick inputs. -/
def runMgrLoop (isPaused : Bool) (frameW frameH : Nat) :
    Stream → EmbeddedBrowser → List MgrTick → Stream × EmbeddedBrowser × List ObservationE
  | st, _br, [] => (st, _br, [])
  | st, br, t :: ts =>
      let r := captureFrameStep isPaused frameW frameH st br t
      let rest := runMgrLoop isPaused frameW frameH r.1 r.2.1 ts
      (rest.1, rest.2.1, r.2.2.toList ++ rest.2.2)

/-! Uplink channel: queueing, batching, flushing
(`UplinkManager` in `src/main/uplink/UplinkManager.ts`, and the headless
`UplinkManager` in `rne-headless/src/ai-analyzer.ts`) -/

/-- Brain connection configuration shared by both variants. -/
structure BrainConfig where
  batchIntervalMs : Nat
  batchMaxSize : Nat
  reconnectIntervalMs : Nat
  maxReconnectAttempts : Nat
deriving DecidableEq, Repr

/-- Uplink state: connection flags, the in-memory observation queue, the
armed batching timer (`batchTimeout`, holding its deadline; `none` when
cleared) and the log of observation batches emitted so far.  Each emitted
`watcher:observations` message wraps exactly one entry of `sent` (its
`agentId` / `batchId` / `streamInfo` fields are context tags that the
queueing logic never reads back).  Generic in the observation type, which
the queueing logic treats as opaque. -/
structure Uplink (α : Type) where
  connected : Bool
  authenticated : Bool
  socketPresent : Bool
  agentId : String
  observationQueue : List α
  batchTimeout : Option Nat
  sent : List (List α)
deriving DecidableEq, Repr

/-- `UplinkManager.flushObservations` (`UplinkManager.ts` lines 159-195):
clear the batching timer; return on an empty queue; return leaving the queue
intact when the socket is absent or not connected; otherwise splice off up to
`batch_max_size` observations and emit them; if the emit throws
(`sendThrows`), unshift the spliced batch back onto the front of the queue. -/
def flushObservations {α : Type} (cfg : BrainConfig) (sendThrows : Bool)
    (s : Uplink α) : Uplink α :=
  let s0 := { s with batchTimeout := none }
  if s0.observationQueue.length = 0 then s0
  else if (s0.socketPresent && s0.connected) = false then s0
  else
    let batch := s0.observationQueue.take cfg.batchMaxSize
    let rest := s0.observationQueue.drop cfg.batchMaxSize
    if sendThrows then { s0 with observationQueue := batch ++ rest }
    else { s0 with observationQueue := rest, sent := s0.sent ++ [batch] }

/-- `flushObservations` of the headless variant (`ai-analyzer.ts` lines
477-508): identical splice and emit, but the emit is not wrapped in
try/catch, so a throwing emit propagates (second component `true`) after the
batch has already been spliced off — nothing restores it to the queue. -/
def flushObservationsHeadless {α : Type} (cfg : BrainConfig) (sendThrows : Bool)
    (s : Uplink α) : Uplink α × Bool :=
  let s0 := { s with batchTimeout := none }
  if s0.observationQueue.length = 0 then (s0, false)
  else if (s0.socketPresent && s0.connected) = false then (s0, false)
  else
    let batch := s0.observationQueue.take cfg.batchMaxSize
    let rest := s0.observationQueue.drop cfg.batchMaxSize
    if sendThrows then ({ s0 with observationQueue := rest }, true)
    else ({ s0 with observationQueue := rest, sent := s0.sent ++ [batch] }, false)

/-- `UplinkManager.sendObservation` (`UplinkManager.ts` lines 145-157, same
shape in `ai-analyzer.ts` lines 463-475): push onto the queue; if no batching
timer is armed, arm one to fire `batch_interval_ms` from now; if the queue
has reached `batch_max_size`, flush immediately. -/
def sendObservation {α : Type} (cfg : BrainConfig) (now : Nat) (sendThrows : Bool)
    (o : α) (s : Uplink α) : Uplink α :=
  let s1 := { s with observationQueue := s.observationQueue ++ [o] }
  let s2 :=
    if s1.batchTimeout = none then
      { s1 with batchTimeout := some (now + cfg.batchIntervalMs) }
    else s1
  if cfg.batchMaxSize ≤ s2.observationQueue.length then flushObservations cfg sendThrows s2
  else s2

/-- `UplinkManager.disconnect` (`UplinkManager.ts` lines 213-229): clear the
batching timer, perform one final flush, close the socket and clear the
connection flags. -/
def disconnect {α : Type} (cfg : BrainConfig) (sendThrows : Bool) (s : Uplink α) : Uplink α :=
  let s1 := flushObservations cfg sendThrows s
  { s1 with socketPresent := false, connected := false, authenticated := false }

/-! Connect handshake and reconnection (`UplinkManager.connect`) -/

/-- Callbacks registered by `UplinkManager.connect` (`UplinkManager.ts` lines
51-125), one constructor per event, in arrival order: transport connect,
`watcher:auth_success`, `watcher:auth_error`, the 10-second authentication
timeout (carrying the `Date.now()` value used for the synthesised id),
transport disconnect, and `connect_error`. -/
inductive UplinkEvent
  | socketConnect
  | authSuccess (agentId : String)
  | authError (err : String)
  | authTimeout (ts : Nat)
  | socketDisconnect (reason : String)
  | connectError
deriving DecidableEq, Repr

instance : DecidableEq (Except String Unit) := fun a b =>
  match a, b with
  | Except.ok (), Except.ok () => isTrue rfl
  | Except.error x, Except.error y =>
      match decEq x y with
      | isTrue h => isTrue (by rw [h])
      | isFalse h => isFalse (by intro hc; cases hc; exact h rfl)
  | Except.ok (), Except.error _ => isFalse (by intro h; cases h)
  | Except.error _, Except.ok () => isFalse (by intro h; cases h)

/-- State of one `connect()` call: the manager's connection flags and the
settlement state of the promise `connect()` returned (`none` while pending;
a JS promise settles at most once). -/
structure ConnectAttempt where
  connected : Bool
  authenticated : Bool
  agentId : String
  reconnectAttempts : Nat
  settled : Option (Except String Unit)
deriving DecidableEq, Repr

/-- Settle the promise: a later resolve/reject on an already settled promise
is a no-op. -/
def settle (s : ConnectAttempt) (r : Except String Unit) : ConnectAttempt :=
  match s.settled with
  | some _ => s
  | none => { s with settled := some r }

/-- Event dispatch of `UplinkManager.connect`: `connect` sets the flag and
resets the attempt counter; `auth_success` marks authenticated, stores the
agent id and resolves; `auth_error` rejects; the authentication timeout, when
not yet authenticated, marks authenticated anyway, synthesises
`watcher-<ts>` and resolves; `disconnect` clears both flags; `connect_error`
increments the attempt counter and rejects once it reaches
`max_reconnect_attempts`. -/
def handleUplinkEvent (cfg : BrainConfig) (s : ConnectAttempt) : UplinkEvent → ConnectAttempt
  | UplinkEvent.socketConnect => { s with connected := true, reconnectAttempts := 0 }
  | UplinkEvent.authSuccess id =>
      settle { s with authenticated := true, agentId := id } (Except.ok ())
  | UplinkEvent.authError err => settle s (Except.error err)
  | UplinkEvent.authTimeout ts =>
      if s.authenticated = false then
        settle { s with authenticated := true, agentId := "watcher-" ++ toString ts }
          (Except.ok ())
      else s
  | UplinkEvent.socketDisconnect _ => { s with connected := false, authenticated := false }
  | UplinkEvent.connectError =>
      let s1 := { s with reconnectAttempts := s.reconnectAttempts + 1 }
      if cfg.maxReconnectAttempts ≤ s1.reconnectAttempts then
        settle s1 (Except.error "Failed to connect after max attempts")
      else s1

/-- Initial state of a `connect()` call. -/
def initConnect : ConnectAttempt :=
  { connected := false
    authenticated := false
    agentId := ""
    reconnectAttempts := 0
    settled := none }

/-- Run one `connect()` call against a trace of events. -/
def runConnect (cfg : BrainConfig) (evs : List UplinkEvent) : ConnectAttempt :=
  evs.foldl (handleUplinkEvent cfg) initConnect

/-- Events that can settle the promise or mark the attempt authenticated. -/
def canSettle : UplinkEvent → Bool
  | UplinkEvent.authSuccess _ => true
  | UplinkEvent.authError _ => true
  | UplinkEvent.authTimeout _ => true
  | UplinkEvent.connectError => true
  | _ => false

/-- Modelled from the spec: the reconnection backoff scheduler is implemented
inside the socket.io client library — the repository only configures it via
the `reconnection`, `reconnectionAttempts` and `reconnectionDelay` options in
`UplinkManager.connect` — so the scheduler itself is not in the repository
sources.  Per the spec, reconnection attempt `n` (1-based) is scheduled after
`delay = reconnectIntervalMs × n` (linear backoff) while `n` is within
`maxReconnectAttempts`, and no further attempt is scheduled beyond the
maximum. -/
def scheduleReconnect (cfg : BrainConfig) (attempt : Nat) : Option Nat :=
  if attempt ≤ cfg.maxReconnectAttempts then some (cfg.reconnectIntervalMs * attempt)
  else none

/-- Modelled from the spec: the full schedule of reconnect delays, one per
permitted attempt. -/
def reconnectDelays (cfg : BrainConfig) : List Nat :=
  (List.range cfg.maxReconnectAttempts).map (fun k => cfg.reconnectIntervalMs * (k + 1))

/-! Concrete fixtures used by witnesses and counterexamples -/

/-- Session fixtures for the rotation witness. -/
def sessA : Session :=
  { streamId := 1
    source := default
    startedAt := 10
    framesCaptured := 7
    framesAnalyzed := 2
    currentTime := 0 }

def sessB : Session :=
  { streamId := 2
    source := default
    startedAt := 20
    framesCaptured := 3
    framesAnalyzed := 1
    currentTime := 0 }

/-- Three-source queue with the cursor at position 1 (C6 witness). -/
def engC6 : WatcherEngine :=
  { sourceQueue :=
      [{ name := "a", url := "", type := SourceType.video, priority := 0, category := "" },
       { name := "b", url := "", type := SourceType.video, priority := 0, category := "" },
       { name := "c", url := "", type := SourceType.video, priority := 0, category := "" }]
    currentSourceIndex := 1
    streams := []
    running := true
    totalFramesCaptured := 0
    totalFramesAnalyzed := 0 }

/-- Engine fixture for the rotation witness: two sessions, totals at 100/50. -/
def engC5 : WatcherEngine :=
  { sourceQueue := engC6.sourceQueue
    currentSourceIndex := 0
    streams := [sessA, sessB]
    running := true
    totalFramesCaptured := 100
    totalFramesAnalyzed := 50 }

/-- A fresh headless watcher fixture (counter at 0). -/
def watcherC1 : StreamWatcher :=
  { streamId := 42
    source := default
    running := true
    pagePresent := true
    stats :=
      { streamId := 42
        source := default
        videoId := ""
        videoTitle := ""
        currentTime := 0
        duration := 0
        framesCaptured := 0
        framesAnalyzed := 0
        startedAt := 0
        state := WatcherState.playing } }

/-- A page state fixture for headless ticks. -/
def psC1 : PageState :=
  { currentTime := 5, duration := 100, isPlaying := true, videoId := "v", title := "t" }

/-- Three headless ticks, the middle one failing its page evaluation. -/
def ticksC1 : List TickInput :=
  [{ evalOk := true, ps := psC1, now := 100 },
   { evalOk := false, ps := psC1, now := 200 },
   { evalOk := true, ps := psC1, now := 300 }]

/-- A fresh Electron stream fixture in state `playing`, counter at 0. -/
def streamFix : Stream :=
  { id := 7
    status :=
      { stream_id := 7
        video_id := ""
        video_title := "s"
        state := StreamState.playing
        current_time := 0
        duration := 0
        frames_captured := 0
        detections_count := 0
        started_at := 0
        last_activity := 0 } }

/-- A fresh embedded-browser fixture (both stall fields at 0, as in the
source initialisers). -/
def browserFix : EmbeddedBrowser :=
  { lastPlaybackTime := 0, stallCheckCount := 0 }

/-- A player reading whose position stays frozen at 7 while reporting active
playback. -/
def readingStalled : PlayerReading :=
  { isPlaying := true
    isBuffering := false
    hasEnded := false
    currentTime := 7
    duration := 100
    videoId := "v" }

/-- A capture tick that reads the frozen position. -/
def tickStalled : MgrTick :=
  { frameOk := true, readOk := true, reading := readingStalled, hasPrompt := false, now := 0 }

/-- An observation fixture. -/
def obsFix : ObservationH :=
  { streamId := 1
    frameId := 1
    capturedAt := 0
    videoId := ""
    videoTitle := ""
    currentTime := 0
    duration := 0
    category := ""
    detections := [] }

/-- A second observation fixture. -/
def obsFix2 : ObservationH :=
  { obsFix with frameId := 2 }

/-- Brain configuration fixture: batches of up to 3 every 1000 ms, reconnect
base interval 1000 ms, at most 3 attempts. -/
def cfgFix : BrainConfig :=
  { batchIntervalMs := 1000
    batchMaxSize := 3
    reconnectIntervalMs := 1000
    maxReconnectAttempts := 3 }

/-- A connected uplink fixture with two queued observations. -/
def upElectronFix : Uplink ObservationH :=
  { connected := true
    authenticated := true
    socketPresent := true
    agentId := "a"
    observationQueue := [obsFix, obsFix2]
    batchTimeout := some 500
    sent := [] }

/-- A connected headless uplink fixture with one queued observation. -/
def upHeadlessFix : Uplink ObservationH :=
  { connected := true
    authenticated := true
    socketPresent := true
    agentId := "a"
    observationQueue := [obsFix]
    batchTimeout := none
    sent := [] }

/-- A connected uplink fixture with an empty queue and no armed timer. -/
def upEmptyFix : Uplink ObservationH :=
  { connected := true
    authenticated := true
    socketPresent := true
    agentId := "a"
    observationQueue := []
    batchTimeout := none
    sent := [] }

/-! Theorems -/

/-- Elements of the queue that share one priority value form a `priorityRel`-
pairwise list. -/
theorem pairwise_filter_priority (sources : List Source) (p : Int) :
    (sources.filter (fun s => decide (s.priority = p))).Pairwise priorityRel := by
  have h : ∀ s ∈ sources.filter (fun s => decide (s.priority = p)), s.priority = p := by
    intro s hs
    have := List.of_mem_filter hs
    simpa using this
  induction sources with
  | nil => simp
  | cons x xs ih =>
      by_cases hx : x.priority = p
      · rw [List.filter_cons_of_pos (by simpa using hx)]
        refine List.Pairwise.cons ?_ (ih ?_)
        · intro b hb
          have hb' : b.priority = p := h b (by
            rw [List.filter_cons_of_pos (by simpa using hx)]
            exact List.mem_cons_of_mem _ hb)
          simp [priorityRel, hx, hb']
        · intro s hs
          exact h s (by
            rw [List.filter_cons_of_pos (by simpa using hx)]
            exact List.mem_cons_of_mem _ hs)
      · rw [List.filter_cons_of_neg (by simpa using hx)]
        refine ih ?_
        intro s hs
        exact h s (by
          rw [List.filter_cons_of_neg (by simpa using hx)]
          exact hs)

/-- Stability of the priority sort: the sources of any one priority keep
their configuration order. -/
theorem initSourceQueuePriority_stable (sources : List Source) (p : Int) :
    (initSourceQueuePriority sources).filter (fun s => decide (s.priority = p))
      = sources.filter (fun s => decide (s.priority = p)) := by
  have hsub : (sources.filter (fun s => decide (s.priority = p))).Sublist
      (initSourceQueuePriority sources) :=
    List.sublist_insertionSort (pairwise_filter_priority sources p)
      (List.filter_sublist sources)
  have hsub2 : (sources.filter (fun s => decide (s.priority = p))).Sublist
      ((initSourceQueuePriority sources).filter (fun s => decide (s.priority = p))) := by
    have h := List.Sublist.filter (fun s => decide (s.priority = p)) hsub
    have hff : List.filter (fun s => decide (s.priority = p))
        (List.filter (fun s => decide (s.priority = p)) sources)
        = List.filter (fun s => decide (s.priority = p)) sources := by
      rw [List.filter_filter]
      apply List.filter_congr
      intro a _
      cases hda : decide (a.priority = p) <;> simp [hda]
    rw [hff] at h
    exact h
  have hperm : ((initSourceQueuePriority sources).filter
      (fun s => decide (s.priority = p))).Perm
      (sources.filter (fun s => decide (s.priority = p))) :=
    (List.perm_insertionSort priorityRel sources).filter _
  exact (hsub2.eq_of_length hperm.length_eq.symm).symm

/-- C7: in `priority` rotation mode the initial queue is the configured source
list stable-sorted ascending by the `priority` field: any element at a later
queue position has a `priority` at least that of any earlier element (so a
source with strictly smaller priority never appears later), and the sources
of each fixed priority value keep their configuration order. -/
theorem priority_queue_sorted_stable (sources : List Source) :
    (∀ i j : Nat, i < j → j < (initSourceQueuePriority sources).length →
      ((initSourceQueuePriority sources).getD i default).priority
        ≤ ((initSourceQueuePriority sources).getD j default).priority)
    ∧ ∀ p : Int,
        (initSourceQueuePriority sources).filter (fun s => decide (s.priority = p))
          = sources.filter (fun s => decide (s.priority = p)) := by
  constructor
  · intro i j hij hj
    have hi : i < (initSourceQueuePriority sources).length := lt_trans hij hj
    have hsorted : (initSourceQueuePriority sources).Pairwise priorityRel :=
      List.sorted_insertionSort priorityRel sources
    have hrel := (List.pairwise_iff_get.mp hsorted) ⟨i, hi⟩ ⟨j, hj⟩ hij
    rw [List.getD_eq_getElem _ default hi, List.getD_eq_getElem _ default hj]
    simpa [priorityRel] using hrel
  · intro p
    exact initSourceQueuePriority_stable sources p

/-- Witness for C7 at a concrete configuration. -/
theorem priority_queue_sorted_stable_witness :
    ((initSourceQueuePriority
        [{ name := "a", url := "", type := SourceType.video, priority := 5, category := "x" },
         { name := "b", url := "", type := SourceType.video, priority := 1, category := "x" },
         { name := "c", url := "", type := SourceType.video, priority := 5, category := "x" }]).getD
          0 default).priority
      ≤ ((initSourceQueuePriority
        [{ name := "a", url := "", type := SourceType.video, priority := 5, category := "x" },
         { name := "b", url := "", type := SourceType.video, priority := 1, category := "x" },
         { name := "c", url := "", type := SourceType.video, priority := 5, category := "x" }]).getD
          2 default).priority :=
  (priority_queue_sorted_stable _).1 0 2 (by decide) (by decide)

theorem nexts_eq_take (n : Nat) :
    ∀ e : WatcherEngine, e.currentSourceIndex < e.sourceQueue.length →
      n ≤ e.sourceQueue.length - e.currentSourceIndex →
      nexts n e = (e.sourceQueue.drop e.currentSourceIndex).take n := by
  induction n with
  | zero => intro e _ _; simp [nexts]
  | succ n ih =>
      intro e hidx hn
      have hdrop := List.drop_eq_getElem_cons hidx
      by_cases hlt : e.currentSourceIndex + 1 < e.sourceQueue.length
      · have hmod : (e.currentSourceIndex + 1) % e.sourceQueue.length
            = e.currentSourceIndex + 1 := Nat.mod_eq_of_lt hlt
        have htail := ih (getNextSource e).2 (by simpa [getNextSource, hmod] using hlt)
          (by simp only [getNextSource, hmod]; omega)
        rw [hdrop]
        simp only [nexts, List.take_succ_cons, getNextSource, hmod] at htail ⊢
        rw [List.getD_eq_getElem e.sourceQueue default hidx, htail]
      · have hL : e.currentSourceIndex + 1 = e.sourceQueue.length := by omega
        have hn0 : n = 0 := by omega
        subst hn0
        rw [hdrop]
        simp only [nexts, List.take_succ_cons, List.take_zero, getNextSource]
        rw [List.getD_eq_getElem e.sourceQueue default hidx]

theorem advance_spec (n : Nat) :
    ∀ e : WatcherEngine, e.currentSourceIndex < e.sourceQueue.length →
      (advance n e).sourceQueue = e.sourceQueue ∧
      (advance n e).currentSourceIndex
        = (e.currentSourceIndex + n) % e.sourceQueue.length := by
  induction n with
  | zero =>
      intro e hidx
      exact ⟨rfl, (Nat.mod_eq_of_lt hidx).symm⟩
  | succ n ih =>
      intro e hidx
      have hL : 0 < e.sourceQueue.length := Nat.lt_of_le_of_lt (Nat.zero_le _) hidx
      have hidx' : (getNextSource e).2.currentSourceIndex
          < (getNextSource e).2.sourceQueue.length := by
        simpa [getNextSource] using Nat.mod_lt _ hL
      have h := ih (getNextSource e).2 hidx'
      constructor
      · simpa [advance, getNextSource] using h.1
      · have h2 := h.2
        simp only [getNextSource] at h2
        calc (advance (n + 1) e).currentSourceIndex
            = ((e.currentSourceIndex + 1) % e.sourceQueue.length + n)
                % e.sourceQueue.length := h2
          _ = (e.currentSourceIndex + 1 + n) % e.sourceQueue.length := by
                rw [Nat.mod_add_mod]
          _ = (e.currentSourceIndex + (n + 1)) % e.sourceQueue.length := by
                congr 1
                omega

theorem nexts_add (m n : Nat) :
    ∀ e : WatcherEngine, nexts (m + n) e = nexts m e ++ nexts n (advance m e) := by
  induction m with
  | zero => intro e; simp [nexts, advance]
  | succ m ih =>
      intro e
      have hcomm : m + 1 + n = (m + n) + 1 := by omega
      rw [hcomm]
      simp only [nexts, advance]
      rw [ih (getNextSource e).2]
      rfl

/-- C6: the source cursor advances circularly: each request returns
`sourceQueue[currentSourceIndex]` and sets the index to
`(index + 1) mod queueLength`; the queue itself is mutated neither by
`getNextSource` nor by `rotateStreams`; and `queueLength` consecutive
requests return the queue rotated at the cursor — every configured source
position exactly once (a permutation of the queue) before wrapping.  The
cursor logic is shared by all rotation modes (the mode only selects the
initial queue order, which is quantified over here). -/
theorem cursor_visits_all_sources (e : WatcherEngine)
    (hidx : e.currentSourceIndex < e.sourceQueue.length) :
    (getNextSource e).1 = e.sourceQueue.getD e.currentSourceIndex default
    ∧ (getNextSource e).2.currentSourceIndex
        = (e.currentSourceIndex + 1) % e.sourceQueue.length
    ∧ (getNextSource e).2.sourceQueue = e.sourceQueue
    ∧ (∀ now newId startOk,
        (rotateStreams e now newId startOk).sourceQueue = e.sourceQueue)
    ∧ nexts e.sourceQueue.length e
        = e.sourceQueue.drop e.currentSourceIndex
            ++ e.sourceQueue.take e.currentSourceIndex
    ∧ (nexts e.sourceQueue.length e).Perm e.sourceQueue := by
  have hL : 0 < e.sourceQueue.length := Nat.lt_of_le_of_lt (Nat.zero_le _) hidx
  have hsplit : e.sourceQueue.length
      = (e.sourceQueue.length - e.currentSourceIndex) + e.currentSourceIndex := by
    omega
  have hmain : nexts e.sourceQueue.length e
      = e.sourceQueue.drop e.currentSourceIndex
          ++ e.sourceQueue.take e.currentSourceIndex := by
    rw [hsplit, nexts_add]
    have h1 : nexts (e.sourceQueue.length - e.currentSourceIndex) e
        = e.sourceQueue.drop e.currentSourceIndex := by
      rw [nexts_eq_take _ e hidx (le_refl _)]
      exact List.take_of_length_le (by rw [List.length_drop])
    have hadv := advance_spec (e.sourceQueue.length - e.currentSourceIndex) e hidx
    have hadvIdx : (advance (e.sourceQueue.length - e.currentSourceIndex)
        e).currentSourceIndex = 0 := by
      rw [hadv.2]
      have hfull : e.currentSourceIndex + (e.sourceQueue.length - e.currentSourceIndex)
          = e.sourceQueue.length := by omega
      rw [hfull, Nat.mod_self]
    have h2 : nexts e.currentSourceIndex
        (advance (e.sourceQueue.length - e.currentSourceIndex) e)
        = e.sourceQueue.take e.currentSourceIndex := by
      rw [nexts_eq_take _ _ (by rw [hadvIdx, hadv.1]; exact hL)
        (by rw [hadvIdx, hadv.1]; omega)]
      rw [hadvIdx, hadv.1]
      simp
    rw [h1, h2]
  refine ⟨rfl, rfl, rfl, ?_, hmain, ?_⟩
  · intro now newId startOk
    unfold rotateStreams
    cases hr : e.running with
    | false => simp [hr]
    | true =>
        simp only [hr]
        cases e.streams with
        | nil => simp
        | cons oldest rest => cases startOk <;> simp [getNextSource]
  · rw [hmain]
    refine List.Perm.trans List.perm_append_comm ?_
    rw [List.take_append_drop]

/-- Witness for C6 at a concrete three-source queue with the cursor at 1:
three requests return sources b, c, a. -/
theorem cursor_visits_all_sources_witness :
    nexts 3 engC6
      = [{ name := "b", url := "", type := SourceType.video, priority := 0, category := "" },
         { name := "c", url := "", type := SourceType.video, priority := 0, category := "" },
         { name := "a", url := "", type := SourceType.video, priority := 0, category := "" }] := by
  have h := (cursor_visits_all_sources engC6 (by decide)).2.2.2.2.1
  simpa using h

/-- Sessions are only ever appended to the map as they start, so rotation
preserves the nondecreasing-`startedAt` order of the session list whenever
the new session starts no earlier than the current ones. -/
theorem rotateStreams_preserves_sorted (e : WatcherEngine) (now newId : Nat) (startOk : Bool)
    (hsorted : e.streams.Pairwise (fun a b => a.startedAt ≤ b.startedAt))
    (hnow : ∀ s ∈ e.streams, s.startedAt ≤ now) :
    (rotateStreams e now newId startOk).streams.Pairwise
      (fun a b => a.startedAt ≤ b.startedAt) := by
  unfold rotateStreams
  cases hr : e.running with
  | false => simpa [hr] using hsorted
  | true =>
      simp only [hr]
      cases hs : e.streams with
      | nil => simp [hs]
      | cons oldest rest =>
          rw [hs] at hsorted hnow
          have hrest : rest.Pairwise (fun a b => a.startedAt ≤ b.startedAt) :=
            List.Pairwise.of_cons hsorted
          cases startOk with
          | false => simpa using hrest
          | true =>
              simp only [Bool.false_eq_true, if_false, if_true, reduceCtorEq]
              rw [List.pairwise_append]
              refine ⟨hrest, List.pairwise_singleton _ _, ?_⟩
              intro a ha b hb
              rw [List.mem_singleton] at hb
              subst hb
              show a.startedAt ≤ now
              exact hnow a (List.mem_cons_of_mem _ ha)

/-- C5: with the session list nondecreasing in `startedAt` (the invariant the
append-only map maintains), a rotation tick with at least one active session
removes exactly the head of the insertion-ordered map — a session whose
`startedAt` is minimal among the active sessions, ties resolved in favour of
the earliest inserted — folds its final stats into the running totals, and
appends one new session built from the next source off the cursor; with zero
active sessions rotation is a no-op. -/
theorem rotate_oldest_session (e : WatcherEngine) (now newId : Nat) (startOk : Bool)
    (hrun : e.running = true)
    (hsorted : e.streams.Pairwise (fun a b => a.startedAt ≤ b.startedAt)) :
    (e.streams = [] → rotateStreams e now newId startOk = e)
    ∧ ∀ oldest rest, e.streams = oldest :: rest →
        (∀ s ∈ e.streams, oldest.startedAt ≤ s.startedAt)
        ∧ (rotateStreams e now newId startOk).totalFramesCaptured
            = e.totalFramesCaptured + oldest.framesCaptured
        ∧ (rotateStreams e now newId startOk).totalFramesAnalyzed
            = e.totalFramesAnalyzed + oldest.framesAnalyzed
        ∧ (rotateStreams e now newId startOk).streams
            = rest ++ (if startOk then
                [mkSession newId (e.sourceQueue.getD e.currentSourceIndex default) now]
              else [])
        ∧ (rotateStreams e now newId startOk).currentSourceIndex
            = (e.currentSourceIndex + 1) % e.sourceQueue.length := by
  constructor
  · intro hse
    unfold rotateStreams
    simp [hrun, hse]
  · intro oldest rest hse
    have hmin : ∀ s ∈ e.streams, oldest.startedAt ≤ s.startedAt := by
      rw [hse] at hsorted ⊢
      intro s hs
      rcases List.mem_cons.mp hs with h | h
      · rw [h]
      · exact (List.pairwise_cons.mp hsorted).1 s h
    refine ⟨hmin, ?_, ?_, ?_, ?_⟩ <;>
      · unfold rotateStreams
        simp only [hrun, hse, getNextSource]
        cases startOk <;> simp

/-- Witness for C5 at a concrete engine with two sessions started at 10 and
20: rotation folds the older session's 7 captured frames into the totals. -/
theorem rotate_oldest_session_witness :
    (rotateStreams engC5 30 99 true).totalFramesCaptured = 107 := by
  have h := ((rotate_oldest_session engC5 30 99 true rfl (by decide)).2
    sessA [sessB] rfl).2.1
  simpa using h

/-- A headless capture tick either submits nothing and leaves the counter
alone, or increments `framesCaptured` and submits an observation whose
`frameId` is exactly the incremented counter. -/
theorem captureTick_cases (w : StreamWatcher) (evalOk : Bool) (ps : PageState) (now : Nat) :
    captureTick w evalOk ps now = (w, none)
    ∨ ∃ w' o, captureTick w evalOk ps now = (w', some o)
        ∧ w'.stats.framesCaptured = w.stats.framesCaptured + 1
        ∧ o.frameId = w.stats.framesCaptured + 1 := by
  unfold captureTick
  by_cases h1 : w.running = false ∨ w.pagePresent = false
  · left
    simp [h1]
  · by_cases h2 : evalOk = false
    · left
      simp [h1, h2]
    · right
      refine ⟨{ w with stats := { w.stats with
                  currentTime := ps.currentTime
                  duration := ps.duration
                  videoId := ps.videoId
                  videoTitle := ps.title
                  framesCaptured := w.stats.framesCaptured + 1 } },
              { streamId := w.streamId
                frameId := w.stats.framesCaptured + 1
                capturedAt := now
                videoId := ps.videoId
                videoTitle := ps.title
                currentTime := ps.currentTime
                duration := ps.duration
                category := w.source.category
                detections := [] }, ?_, rfl, rfl⟩
      simp [h1, h2]

/-- Submitted frame ids of the headless capture loop: starting from counter
`c`, the submitted sequence is exactly `c+1, c+2, …`, and the final counter
is `c` plus the number of submissions. -/
theorem runCaptureLoop_spec (ts : List TickInput) :
    ∀ w : StreamWatcher,
      (runCaptureLoop w ts).2.map (fun o => o.frameId)
        = List.range' (w.stats.framesCaptured + 1) (runCaptureLoop w ts).2.length
      ∧ (runCaptureLoop w ts).1.stats.framesCaptured
        = w.stats.framesCaptured + (runCaptureLoop w ts).2.length := by
  induction ts with
  | nil => intro w; simp [runCaptureLoop]
  | cons t ts ih =>
      intro w
      rcases captureTick_cases w t.evalOk t.ps t.now with h | ⟨w', o, heq, hw', ho⟩
      · simp only [runCaptureLoop, h, Option.toList, List.nil_append]
        exact ih w
      · simp only [runCaptureLoop, heq, Option.toList, List.map_cons, List.length_cons,
          List.cons_append, List.nil_append]
        have hih := ih w'
        constructor
        · rw [ho, hih.1, hw', List.range'_succ]
        · rw [hih.2, hw']
          omega

/-- Auxiliary: two adjacent ranges concatenate. -/
theorem range'_append_simple (s m n : Nat) :
    List.range' s m ++ List.range' (s + m) n = List.range' s (m + n) := by
  have h := List.range'_append s m n 1
  rw [Nat.one_mul] at h
  rw [Nat.add_comm n m] at h
  exact h

/-- An Electron capture tick advances `frames_captured` by exactly the number
of observations it submits (0 or 1), and a submitted observation's
`frame_id` is exactly the incremented counter. -/
theorem captureFrameStep_spec (isPaused : Bool) (fw fh : Nat) (st : Stream)
    (br : EmbeddedBrowser) (t : MgrTick) :
    (captureFrameStep isPaused fw fh st br t).1.status.frames_captured
      = st.status.frames_captured
          + (captureFrameStep isPaused fw fh st br t).2.2.toList.length
    ∧ (captureFrameStep isPaused fw fh st br t).2.2.toList.map (fun o => o.frame_id)
      = List.range' (st.status.frames_captured + 1)
          (captureFrameStep isPaused fw fh st br t).2.2.toList.length := by
  by_cases hg : isPaused = true ∨ st.status.state = StreamState.stopped
  · constructor <;> simp [captureFrameStep, hg, Option.toList]
  · by_cases hf : t.frameOk
    · constructor
      · simp only [captureFrameStep]
        rw [if_neg hg]
        simp only [hf, eq_self_iff_true, if_true]
        split
        · simp [Option.toList]
        · split <;> simp [Option.toList]
      · simp only [captureFrameStep]
        rw [if_neg hg]
        simp only [hf, eq_self_iff_true, if_true]
        simp [Option.toList]
    · constructor
      · simp only [captureFrameStep]
        rw [if_neg hg]
        simp only [hf, if_false]
        split
        · simp [Option.toList]
        · split <;> simp [Option.toList]
      · simp only [captureFrameStep]
        rw [if_neg hg]
        simp only [hf, if_false]
        simp [Option.toList]

/-- Submitted frame ids of the Electron capture loop: starting from counter
`c`, the submitted sequence is exactly `c+1, c+2, …`, and the final counter
is `c` plus the number of submissions. -/
theorem runMgrLoop_spec (isPaused : Bool) (fw fh : Nat) (ms : List MgrTick) :
    ∀ (st : Stream) (br : EmbeddedBrowser),
      (runMgrLoop isPaused fw fh st br ms).2.2.map (fun o => o.frame_id)
        = List.range' (st.status.frames_captured + 1)
            (runMgrLoop isPaused fw fh st br ms).2.2.length
      ∧ (runMgrLoop isPaused fw fh st br ms).1.status.frames_captured
        = st.status.frames_captured + (runMgrLoop isPaused fw fh st br ms).2.2.length := by
  induction ms with
  | nil => intro st br; simp [runMgrLoop]
  | cons t ts ih =>
      intro st br
      have hstep := captureFrameStep_spec isPaused fw fh st br t
      have hih := ih (captureFrameStep isPaused fw fh st br t).1
        (captureFrameStep isPaused fw fh st br t).2.1
      rw [hstep.1] at hih
      simp only [runMgrLoop]
      constructor
      · rw [List.map_append, List.length_append, hstep.2, hih.1]
        have harith : st.status.frames_captured
              + (captureFrameStep isPaused fw fh st br t).2.2.toList.length + 1
            = (st.status.frames_captured + 1)
              + (captureFrameStep isPaused fw fh st br t).2.2.toList.length := by
          omega
        rw [harith, range'_append_simple]
      · rw [List.length_append, hih.2]
        omega

/-- C1: for a fresh stream session (counter at 0), in both variants, the
frame ids of the observations submitted over the session's lifetime are
exactly `1, 2, 3, …` — starting at 1, strictly increasing by exactly 1 per
submitted observation, with no gaps and no repeats — and each equals the
session's `framesCaptured` counter after its increment (so the final counter
equals the number of submissions). -/
theorem frameId_contiguous_from_one
    (w : StreamWatcher) (hw : w.stats.framesCaptured = 0) (ts : List TickInput)
    (isPaused : Bool) (fw fh : Nat) (st : Stream) (hst : st.status.frames_captured = 0)
    (br : EmbeddedBrowser) (ms : List MgrTick) :
    (runCaptureLoop w ts).2.map (fun o => o.frameId)
        = List.range' 1 (runCaptureLoop w ts).2.length
    ∧ (runCaptureLoop w ts).1.stats.framesCaptured = (runCaptureLoop w ts).2.length
    ∧ (runMgrLoop isPaused fw fh st br ms).2.2.map (fun o => o.frame_id)
        = List.range' 1 (runMgrLoop isPaused fw fh st br ms).2.2.length
    ∧ (runMgrLoop isPaused fw fh st br ms).1.status.frames_captured
        = (runMgrLoop isPaused fw fh st br ms).2.2.length := by
  have h1 := runCaptureLoop_spec ts w
  have h2 := runMgrLoop_spec isPaused fw fh ms st br
  rw [hw] at h1
  rw [hst] at h2
  simp only [Nat.zero_add] at h1 h2
  exact ⟨h1.1, h1.2, h2.1, h2.2⟩

/-- Witness for C1: three headless ticks with a failing middle tick submit
frame ids 1, 2. -/
theorem frameId_contiguous_from_one_witness :
    (runCaptureLoop watcherC1 ticksC1).2.map (fun o => o.frameId) = [1, 2] := by
  have h := (frameId_contiguous_from_one watcherC1 rfl ticksC1 false 640 480
    streamFix rfl browserFix []).1
  exact h.trans (by decide)

/-- C3, counterexample run: the reported position stays at 7 across four
consecutive capture ticks.  On the 4th tick the stall counter has reached 3
and `getPlaybackState` reports `isStalled = true`, yet the session's state
after the run is still `playing` — never `stalled`: the capture loop ignores
the `isStalled` flag and no code assigns the `stalled` state. -/
theorem stalled_state_never_entered :
    (runMgrLoop false 640 480 streamFix browserFix
        [tickStalled, tickStalled, tickStalled, tickStalled]).1.status.state
      = StreamState.playing
    ∧ (runMgrLoop false 640 480 streamFix browserFix
        [tickStalled, tickStalled, tickStalled, tickStalled]).2.1.stallCheckCount = 3
    ∧ (getPlaybackState (runMgrLoop false 640 480 streamFix browserFix
        [tickStalled, tickStalled, tickStalled]).2.1 true readingStalled false).2.isStalled
      = true
    ∧ (runMgrLoop false 640 480 streamFix browserFix
        [tickStalled, tickStalled, tickStalled, tickStalled]).1.status.state
      ≠ StreamState.stalled := by
  decide

/-- C2, amended and proved: in the Electron `UplinkManager`, a flush while
the channel is not connected leaves the queue intact; a flush whose
transmission throws restores the queue exactly (the removed batch back at the
front in original order); and the next successful flush then emits a batch
that starts with exactly the previously failed batch.  The headless variant's
flush also leaves the queue intact while not connected, but (see the
counterexample) does not restore a batch whose emit throws. -/
theorem flush_no_drop {α : Type} (cfg : BrainConfig) (s : Uplink α)
    (hconn : s.connected = true) (hsock : s.socketPresent = true)
    (hne : s.observationQueue ≠ []) :
    (∀ (sendThrows : Bool) (s2 : Uplink α), s2.connected = false →
        (flushObservations cfg sendThrows s2).observationQueue = s2.observationQueue
        ∧ (flushObservationsHeadless cfg sendThrows s2).1.observationQueue
            = s2.observationQueue)
    ∧ (∀ s2 : Uplink α,
        (flushObservations cfg true s2).observationQueue = s2.observationQueue)
    ∧ ∀ extra : List α,
        (flushObservations cfg false
          { flushObservations cfg true s with
              observationQueue := (flushObservations cfg true s).observationQueue
                ++ extra }).sent
          = s.sent ++ [s.observationQueue.take cfg.batchMaxSize
              ++ extra.take (cfg.batchMaxSize - s.observationQueue.length)] := by
  have hlq : ¬ s.observationQueue.length = 0 := by
    simpa [List.length_eq_zero] using hne
  refine ⟨?_, ?_, ?_⟩
  · intro sendThrows s2 h2
    constructor
    · unfold flushObservations
      by_cases hq : s2.observationQueue.length = 0
      · simp [hq]
      · simp [hq, h2]
    · unfold flushObservationsHeadless
      by_cases hq : s2.observationQueue.length = 0
      · simp [hq]
      · simp [hq, h2]
  · intro s2
    unfold flushObservations
    by_cases hq : s2.observationQueue.length = 0
    · simp [hq]
    · by_cases hcs : (s2.socketPresent && s2.connected) = false
      · simp [hq, hcs]
      · simp [hq, hcs, List.take_append_drop]
  · intro extra
    have hfail : flushObservations cfg true s
        = { s with
            batchTimeout := none
            observationQueue := s.observationQueue.take cfg.batchMaxSize
              ++ s.observationQueue.drop cfg.batchMaxSize } := by
      unfold flushObservations
      simp [hlq, hconn, hsock]
    rw [hfail]
    rw [List.take_append_drop]
    unfold flushObservations
    have hlen : ¬ (s.observationQueue ++ extra).length = 0 := by
      rw [List.length_append]
      omega
    simp [hlen, hconn, hsock, List.take_append_eq_append_take]
    rw [if_neg hlen]

/-- Witness for C2's amended theorem: a throwing flush on the two-element
queue leaves the queue unchanged. -/
theorem flush_no_drop_witness :
    (flushObservations cfgFix true upElectronFix).observationQueue
      = upElectronFix.observationQueue :=
  (flush_no_drop cfgFix upElectronFix rfl rfl (by decide)).2.1 upElectronFix

/-- C2, counterexample to the claim as stated: in the headless variant, a
flush whose emit throws does not push the removed batch back onto the queue:
from a connected state with queue `[obsFix]`, after the throwing flush the
queue is empty and nothing was sent — the batch is gone. -/
theorem headless_flush_drops_batch_on_throw :
    (flushObservationsHeadless cfgFix true upHeadlessFix).1.observationQueue = []
    ∧ (flushObservationsHeadless cfgFix true upHeadlessFix).1.sent = []
    ∧ (flushObservationsHeadless cfgFix true upHeadlessFix).2 = true := by
  decide

/-- C4: over connected states satisfying the reachable-state invariant (the
batching timer is armed exactly when the queue is nonempty, and the queue
holds fewer than `batchMaxSize` observations), `sendObservation` (a) on an
enqueue into an empty queue arms the batching timer to fire
`batchIntervalMs` from now — and on any other enqueue the timer is already
armed — without flushing while the queue stays below `batchMaxSize`; (b) on
the enqueue that makes the queue length reach `batchMaxSize`, flushes that
whole batch immediately, independently of the timer; (c) in particular a
single enqueued observation is still queued with the timer armed at
`now + batchIntervalMs`, and the timer's flush then delivers exactly that one
observation; and (d) both operations preserve the invariant, so the timer
armed by (a) is indeed started exactly on the first enqueue after the queue
was empty. -/
theorem batch_flush_triggers {α : Type} (cfg : BrainConfig) (s : Uplink α)
    (now : Nat) (o : α)
    (hconn : s.connected = true) (hsock : s.socketPresent = true)
    (hinv : s.batchTimeout = none ↔ s.observationQueue = [])
    (hlen : s.observationQueue.length < cfg.batchMaxSize) :
    (s.observationQueue = [] → s.observationQueue.length + 1 < cfg.batchMaxSize →
      sendObservation cfg now false o s
        = { s with
            observationQueue := [o]
            batchTimeout := some (now + cfg.batchIntervalMs) })
    ∧ (s.observationQueue.length + 1 = cfg.batchMaxSize →
      sendObservation cfg now false o s
        = { s with
            observationQueue := []
            batchTimeout := none
            sent := s.sent ++ [s.observationQueue ++ [o]] })
    ∧ (s.observationQueue = [] → 2 ≤ cfg.batchMaxSize →
        (sendObservation cfg now false o s).batchTimeout
            = some (now + cfg.batchIntervalMs)
        ∧ flushObservations cfg false (sendObservation cfg now false o s)
          = { s with
              observationQueue := []
              batchTimeout := none
              sent := s.sent ++ [[o]] })
    ∧ ((sendObservation cfg now false o s).batchTimeout = none
        ↔ (sendObservation cfg now false o s).observationQueue = [])
    ∧ (sendObservation cfg now false o s).observationQueue.length < cfg.batchMaxSize
    ∧ ((flushObservations cfg false s).batchTimeout = none
        ↔ (flushObservations cfg false s).observationQueue = [])
    ∧ (flushObservations cfg false s).observationQueue.length < cfg.batchMaxSize := by
  have hA : s.observationQueue = [] → s.observationQueue.length + 1 < cfg.batchMaxSize →
      sendObservation cfg now false o s
        = { s with
            observationQueue := [o]
            batchTimeout := some (now + cfg.batchIntervalMs) } := by
    intro hq hlt
    have ht : s.batchTimeout = none := hinv.mpr hq
    rw [hq] at hlt
    simp only [List.length_nil] at hlt
    simp [sendObservation, hq, ht, show ¬ (cfg.batchMaxSize ≤ 1) from by omega]
  have hB : s.observationQueue.length + 1 = cfg.batchMaxSize →
      sendObservation cfg now false o s
        = { s with
            observationQueue := []
            batchTimeout := none
            sent := s.sent ++ [s.observationQueue ++ [o]] } := by
    intro hq2
    have hlenq : (s.observationQueue ++ [o]).length = cfg.batchMaxSize := by
      rw [List.length_append]
      simpa using hq2
    have hle : (s.observationQueue ++ [o]).length ≤ cfg.batchMaxSize := le_of_eq hlenq
    have hmax0 : ¬ (cfg.batchMaxSize = 0) := by omega
    cases hsbt : s.batchTimeout with
    | none =>
        simp [sendObservation, flushObservations, hsbt, hlenq, hconn, hsock, hmax0,
          List.take_of_length_le hle, List.drop_eq_nil_of_le hle]
    | some d =>
        simp [sendObservation, flushObservations, hsbt, hlenq, hconn, hsock, hmax0,
          List.take_of_length_le hle, List.drop_eq_nil_of_le hle]
  have hC : s.observationQueue = [] → 2 ≤ cfg.batchMaxSize →
      (sendObservation cfg now false o s).batchTimeout
          = some (now + cfg.batchIntervalMs)
      ∧ flushObservations cfg false (sendObservation cfg now false o s)
        = { s with
            observationQueue := []
            batchTimeout := none
            sent := s.sent ++ [[o]] } := by
    intro hq hmax2
    have hsend := hA hq (by rw [hq]; simp; omega)
    have h1le : ([o] : List α).length ≤ cfg.batchMaxSize := by simp; omega
    constructor
    · rw [hsend]
    · rw [hsend]
      unfold flushObservations
      simp [hconn, hsock, List.take_of_length_le h1le, List.drop_eq_nil_of_le h1le]
  have hD : (sendObservation cfg now false o s).batchTimeout = none
      ↔ (sendObservation cfg now false o s).observationQueue = [] := by
    unfold sendObservation
    by_cases hth : cfg.batchMaxSize ≤ s.observationQueue.length + 1
    · have hle : (s.observationQueue ++ [o]).length ≤ cfg.batchMaxSize := by
        rw [List.length_append]
        simp only [List.length_cons, List.length_nil]
        omega
      have hne0 : ¬ ((s.observationQueue ++ [o]).length = 0) := by
        rw [List.length_append]
        simp
      cases hsbt : s.batchTimeout with
      | none =>
          simp [flushObservations, hsbt, hth, hconn, hsock, hne0,
            List.drop_eq_nil_of_le hle]
      | some d =>
          simp [flushObservations, hsbt, hth, hconn, hsock, hne0,
            List.drop_eq_nil_of_le hle]
    · cases hsbt : s.batchTimeout with
      | none => simp [hsbt, hth]
      | some d => simp [hsbt, hth]
  have hE : (sendObservation cfg now false o s).observationQueue.length
      < cfg.batchMaxSize := by
    unfold sendObservation
    by_cases hth : cfg.batchMaxSize ≤ s.observationQueue.length + 1
    · have hle : (s.observationQueue ++ [o]).length ≤ cfg.batchMaxSize := by
        rw [List.length_append]
        simp only [List.length_cons, List.length_nil]
        omega
      have hne0 : ¬ ((s.observationQueue ++ [o]).length = 0) := by
        rw [List.length_append]
        simp
      cases hsbt : s.batchTimeout with
      | none =>
          simp [flushObservations, hsbt, hth, hconn, hsock, hne0,
            List.drop_eq_nil_of_le hle]
          omega
      | some d =>
          simp [flushObservations, hsbt, hth, hconn, hsock, hne0,
            List.drop_eq_nil_of_le hle]
          omega
    · cases hsbt : s.batchTimeout with
      | none =>
          simp [hsbt, hth, List.length_append]
          omega
      | some d =>
          simp [hsbt, hth, List.length_append]
          omega
  have hFG : ((flushObservations cfg false s).batchTimeout = none
        ↔ (flushObservations cfg false s).observationQueue = [])
      ∧ (flushObservations cfg false s).observationQueue.length < cfg.batchMaxSize := by
    unfold flushObservations
    by_cases hq : s.observationQueue.length = 0
    · constructor
      · simp [hq, List.length_eq_zero.mp hq]
      · simp [hq]
        omega
    · have hle : s.observationQueue.length ≤ cfg.batchMaxSize := le_of_lt hlen
      constructor
      · simp [hq, hconn, hsock, List.drop_eq_nil_of_le hle]
      · simp [hq, hconn, hsock, List.drop_eq_nil_of_le hle]
        omega
  exact ⟨hA, hB, hC, hD, hE, hFG.1, hFG.2⟩

/-- Witness for C4: from the empty connected fixture, one enqueue arms the
timer at 1000 and queues the single observation without flushing. -/
theorem batch_flush_triggers_witness :
    sendObservation cfgFix 0 false obsFix upEmptyFix
      = { upEmptyFix with
          observationQueue := [obsFix]
          batchTimeout := some 1000 } :=
  (batch_flush_triggers cfgFix upEmptyFix 0 obsFix rfl rfl (by decide) (by decide)).1
    rfl (by decide)

/-- Every batch a flush appends to the emission log is nonempty and within
`batchMaxSize`, provided all previously emitted batches were. -/
theorem flushObservations_sent_bound {α : Type} (cfg : BrainConfig) (sendThrows : Bool)
    (s : Uplink α) (hmax : 0 < cfg.batchMaxSize)
    (hsent : ∀ b ∈ s.sent, b ≠ [] ∧ b.length ≤ cfg.batchMaxSize) :
    ∀ b ∈ (flushObservations cfg sendThrows s).sent,
      b ≠ [] ∧ b.length ≤ cfg.batchMaxSize := by
  unfold flushObservations
  by_cases hq : s.observationQueue.length = 0
  · simpa [hq] using hsent
  · by_cases hcs : (s.socketPresent && s.connected) = false
    · simpa [hq, hcs] using hsent
    · cases hthrow : sendThrows with
      | true => simpa [hq, hcs] using hsent
      | false =>
          intro b hb
          simp [hq, hcs] at hb
          rcases hb with hb | hb
          · exact hsent b hb
          · rw [hb]
            constructor
            · apply List.ne_nil_of_length_pos
              rw [List.length_take]
              have hpos : 0 < s.observationQueue.length := Nat.pos_of_ne_zero hq
              omega
            · exact List.length_take_le _ _

/-- C10: every ObservationBatch the channel actually emits holds at least one
and at most `batchMaxSize` observations (assuming all batches emitted so far
did, as they do from the initial empty log), because a flush with an empty
queue only clears the timer and sends nothing — in particular the final
flush performed by `disconnect` sends no message when the queue is empty —
and a nonempty flush emits `take batchMaxSize` of a nonempty queue. -/
theorem emitted_batches_bounded {α : Type} (cfg : BrainConfig) (s : Uplink α)
    (hmax : 0 < cfg.batchMaxSize)
    (hsent : ∀ b ∈ s.sent, b ≠ [] ∧ b.length ≤ cfg.batchMaxSize) :
    (s.observationQueue = [] → ∀ sendThrows,
        flushObservations cfg sendThrows s = { s with batchTimeout := none })
    ∧ (s.observationQueue = [] → ∀ sendThrows,
        (disconnect cfg sendThrows s).sent = s.sent)
    ∧ (∀ sendThrows, ∀ b ∈ (flushObservations cfg sendThrows s).sent,
        b ≠ [] ∧ b.length ≤ cfg.batchMaxSize)
    ∧ (∀ sendThrows, ∀ b ∈ (disconnect cfg sendThrows s).sent,
        b ≠ [] ∧ b.length ≤ cfg.batchMaxSize)
    ∧ ∀ (now : Nat) (sendThrows : Bool) (o : α),
        ∀ b ∈ (sendObservation cfg now sendThrows o s).sent,
          b ≠ [] ∧ b.length ≤ cfg.batchMaxSize := by
  have hempty : s.observationQueue = [] → ∀ sendThrows,
      flushObservations cfg sendThrows s = { s with batchTimeout := none } := by
    intro hq sendThrows
    unfold flushObservations
    simp [hq]
  refine ⟨hempty, ?_, ?_, ?_, ?_⟩
  · intro hq sendThrows
    unfold disconnect
    rw [hempty hq sendThrows]
  · intro sendThrows
    exact flushObservations_sent_bound cfg sendThrows s hmax hsent
  · intro sendThrows b hb
    exact flushObservations_sent_bound cfg sendThrows s hmax hsent b (by simpa [disconnect] using hb)
  · intro now sendThrows o
    unfold sendObservation
    by_cases hbt : s.batchTimeout = none <;>
      by_cases hth : cfg.batchMaxSize ≤ s.observationQueue.length + 1 <;>
        simp [hbt, hth, List.length_append] <;>
        first
          | exact flushObservations_sent_bound cfg sendThrows _ hmax hsent
          | simpa using hsent

/-- Witness for C10: flushing the empty connected fixture only clears the
timer and emits nothing. -/
theorem emitted_batches_bounded_witness :
    flushObservations cfgFix false upEmptyFix = { upEmptyFix with batchTimeout := none } :=
  (emitted_batches_bounded cfgFix upEmptyFix (by decide) (by decide)).1 rfl false

/-- A settled promise stays settled with the same result through any further
events (a JS promise settles once). -/
theorem foldl_settled_some (cfg : BrainConfig) (r : Except String Unit) :
    ∀ (evs : List UplinkEvent) (s : ConnectAttempt), s.settled = some r →
      (evs.foldl (handleUplinkEvent cfg) s).settled = some r := by
  intro evs
  induction evs with
  | nil => intro s hs; exact hs
  | cons e evs ih =>
      intro s hs
      rw [List.foldl_cons]
      apply ih
      cases e with
      | socketConnect => simpa [handleUplinkEvent] using hs
      | authSuccess id => simp [handleUplinkEvent, settle, hs]
      | authError err => simp [handleUplinkEvent, settle, hs]
      | authTimeout ts =>
          by_cases ha : s.authenticated = false <;>
            simp [handleUplinkEvent, settle, hs, ha]
      | socketDisconnect reason => simpa [handleUplinkEvent] using hs
      | connectError =>
          by_cases hc : cfg.maxReconnectAttempts ≤ s.reconnectAttempts + 1 <;>
            simp [handleUplinkEvent, settle, hs, hc]

/-- Events that neither acknowledge authentication nor error keep the
promise pending and the attempt unauthenticated. -/
theorem foldl_no_settle (cfg : BrainConfig) :
    ∀ (evs : List UplinkEvent) (s : ConnectAttempt),
      (∀ e ∈ evs, canSettle e = false) → s.settled = none → s.authenticated = false →
      (evs.foldl (handleUplinkEvent cfg) s).settled = none
      ∧ (evs.foldl (handleUplinkEvent cfg) s).authenticated = false := by
  intro evs
  induction evs with
  | nil => intro s _ h1 h2; exact ⟨h1, h2⟩
  | cons e evs ih =>
      intro s hall h1 h2
      have he : canSettle e = false := hall e (List.mem_cons_self e evs)
      have hall' : ∀ x ∈ evs, canSettle x = false :=
        fun x hx => hall x (List.mem_cons_of_mem _ hx)
      rw [List.foldl_cons]
      cases e with
      | socketConnect =>
          exact ih _ hall' (by simpa [handleUplinkEvent] using h1)
            (by simpa [handleUplinkEvent] using h2)
      | socketDisconnect reason =>
          exact ih _ hall' (by simpa [handleUplinkEvent] using h1)
            (by simp [handleUplinkEvent])
      | authSuccess id => simp [canSettle] at he
      | authError err => simp [canSettle] at he
      | authTimeout ts => simp [canSettle] at he
      | connectError => simp [canSettle] at he

/-- C8: if the events before the authentication timeout neither acknowledge
nor reject authentication, the timeout callback treats the channel as
authenticated anyway, synthesizes the local agent identifier
`watcher-<ts>`, and resolves the promise returned by `connect()` — and the
resolution survives any later events; an explicit auth-error response
instead rejects the promise with that error. -/
theorem auth_timeout_soft_success (cfg : BrainConfig) (evs1 evs2 : List UplinkEvent)
    (ts : Nat) (err : String)
    (hpre : ∀ e ∈ evs1, canSettle e = false) :
    (runConnect cfg (evs1 ++ [UplinkEvent.authTimeout ts])).settled
        = some (Except.ok ())
    ∧ (runConnect cfg (evs1 ++ [UplinkEvent.authTimeout ts])).authenticated = true
    ∧ (runConnect cfg (evs1 ++ [UplinkEvent.authTimeout ts])).agentId
        = "watcher-" ++ toString ts
    ∧ (evs2.foldl (handleUplinkEvent cfg)
          (runConnect cfg (evs1 ++ [UplinkEvent.authTimeout ts]))).settled
        = some (Except.ok ())
    ∧ (runConnect cfg (evs1 ++ [UplinkEvent.authError err])).settled
        = some (Except.error err) := by
  have h := foldl_no_settle cfg evs1 initConnect hpre rfl rfl
  have htime : runConnect cfg (evs1 ++ [UplinkEvent.authTimeout ts])
      = settle { evs1.foldl (handleUplinkEvent cfg) initConnect with
                 authenticated := true
                 agentId := "watcher-" ++ toString ts } (Except.ok ()) := by
    unfold runConnect
    rw [List.foldl_append, List.foldl_cons, List.foldl_nil]
    simp [handleUplinkEvent, h.2]
  have hsettled : (runConnect cfg (evs1 ++ [UplinkEvent.authTimeout ts])).settled
      = some (Except.ok ()) := by
    rw [htime]
    simp [settle, h.1]
  refine ⟨hsettled, ?_, ?_, ?_, ?_⟩
  · rw [htime]
    simp [settle, h.1]
  · rw [htime]
    simp [settle, h.1]
  · exact foldl_settled_some cfg (Except.ok ()) evs2 _ hsettled
  · unfold runConnect
    rw [List.foldl_append, List.foldl_cons, List.foldl_nil]
    simp [handleUplinkEvent, settle, h.1]

/-- Witness for C8 at the trace: transport connect, then the timeout fires
at ts = 5 with no auth acknowledgement. -/
theorem auth_timeout_soft_success_witness :
    (runConnect cfgFix ([UplinkEvent.socketConnect] ++ [UplinkEvent.authTimeout 5])).settled
      = some (Except.ok ()) :=
  (auth_timeout_soft_success cfgFix [UplinkEvent.socketConnect] [] 5 "x" (by decide)).1

/-- C9 (`spec-modelled` for the delay law): reconnection attempt `n`
(1-based) is scheduled after a linear-backoff delay of
`reconnectIntervalMs × n` while `n ≤ maxReconnectAttempts`; no attempt
beyond the maximum is ever scheduled (the schedule has exactly
`maxReconnectAttempts` entries); and — from the repository's `connect_error`
handler — once the attempt counter reaches the maximum, the `connect()`
promise is rejected with the terminal error, with no further automatic
retries past that event. -/
theorem reconnect_backoff (cfg : BrainConfig) (s : ConnectAttempt) (n : Nat) :
    (1 ≤ n → n ≤ cfg.maxReconnectAttempts →
        scheduleReconnect cfg n = some (cfg.reconnectIntervalMs * n))
    ∧ (cfg.maxReconnectAttempts < n → scheduleReconnect cfg n = none)
    ∧ (reconnectDelays cfg).length = cfg.maxReconnectAttempts
    ∧ (∀ k, k < cfg.maxReconnectAttempts →
        (reconnectDelays cfg).getD k 0 = cfg.reconnectIntervalMs * (k + 1))
    ∧ (s.settled = none → s.reconnectAttempts + 1 < cfg.maxReconnectAttempts →
        handleUplinkEvent cfg s UplinkEvent.connectError
          = { s with reconnectAttempts := s.reconnectAttempts + 1 })
    ∧ (s.settled = none → cfg.maxReconnectAttempts ≤ s.reconnectAttempts + 1 →
        (handleUplinkEvent cfg s UplinkEvent.connectError).settled
          = some (Except.error "Failed to connect after max attempts")) := by
  refine ⟨?_, ?_, ?_, ?_, ?_, ?_⟩
  · intro h1 h2
    unfold scheduleReconnect
    simp [h2]
  · intro hgt
    unfold scheduleReconnect
    simp [show ¬ (n ≤ cfg.maxReconnectAttempts) from by omega]
  · simp [reconnectDelays]
  · intro k hk
    have hk2 : k < (reconnectDelays cfg).length := by simpa [reconnectDelays] using hk
    rw [List.getD_eq_getElem _ _ hk2]
    simp [reconnectDelays]
  · intro hsettled hlt
    unfold handleUplinkEvent
    simp [show ¬ (cfg.maxReconnectAttempts ≤ s.reconnectAttempts + 1) from by omega]
  · intro hsettled hge
    unfold handleUplinkEvent
    simp [hge, settle, hsettled]

/-- Witness for C9: with a base interval of 1000 ms and 3 permitted
attempts, attempt 2 is scheduled after 2000 ms. -/
theorem reconnect_backoff_witness : scheduleReconnect cfgFix 2 = some 2000 := by
  have h := (reconnect_backoff cfgFix initConnect 2).1 (by decide) (by decide)
  exact h.trans (by decide)

end RNE
